import Mathlib

/-!
Formal model of the flynn `controller-grpc` server (controller-grpc/controller.go):
the list+stream RPC handlers, the per-call event subscription object, the
synchronous scale RPC and the deployment stream.  Pure Go helpers are embedded
as Lean functions; each handler's event loop is embedded as a step function or
a recursion over the (finite) list of channel deliveries it processes.
External collaborators (the `data`, `utils` and `protobuf` packages) are
modelled from the specification where noted.
-/

/-- Label maps (`map[string]string` in Go), as association lists. -/
abbrev Labels := List (String × String)

def lookupLabel (labels : Labels) (k : String) : Option String :=
  (labels.find? (fun p => p.1 == k)).map (·.2)

/-- Scale request lifecycle states (ct.ScaleRequestState). -/
inductive ScaleState
  | pending
  | cancelled
  | complete
deriving DecidableEq, Repr

/-- ct.App: the domain app record (fields used by the handlers). -/
structure CtApp where
  id : String
  name : String
  meta : Labels
deriving DecidableEq, Repr

/-- ct.Release: the domain release record (fields used by the handlers). -/
structure CtRelease where
  id : String
  appID : String
  labels : Labels
deriving DecidableEq, Repr

/-- ct.ScaleRequest: the domain scale request record. -/
structure CtScaleRequest where
  id : String
  appID : String
  releaseID : String
  state : ScaleState
deriving DecidableEq, Repr

/-- ct.DeploymentEvent: the payload of a deployment event. -/
structure CtDeploymentEvent where
  jobType : String
  jobState : String
  error : String
  status : String
deriving DecidableEq, Repr

/-- ct.Deployment: the deployment record re-fetched by CreateDeployment. -/
structure CtDeployment where
  appID : String
  newReleaseID : String
  status : String
deriving DecidableEq, Repr

/-- ct.EventOp values. -/
inductive EventOp
  | create
  | update
  | delete
deriving DecidableEq, Repr

/-- The payload carried in an event row (`event.Data`, raw JSON in Go).
`malformed` models a payload on which `json.Unmarshal` fails. -/
inductive EventData
  | app (a : CtApp)
  | scaleRequest (r : CtScaleRequest)
  | release (r : CtRelease)
  | deploymentEvent (d : CtDeploymentEvent)
  | malformed
deriving DecidableEq, Repr

/-- ct.Event: a row of the append-only event feed. -/
structure Event where
  id : Int
  appID : String
  objectType : String
  objectID : String
  op : EventOp
  data : EventData
deriving DecidableEq, Repr

/-- ct.EventTypeApp (declared in the external ct package). -/
def eventTypeApp : String := "app"

/-- ct.EventTypeAppRelease. -/
def eventTypeAppRelease : String := "app_release"

/-- ct.EventTypeScaleRequest. -/
def eventTypeScaleRequest : String := "scale_request"

/-- ct.EventTypeRelease. -/
def eventTypeRelease : String := "release"

/-- ct.EventTypeDeployment. -/
def eventTypeDeployment : String := "deployment"

/-- json.Unmarshal(event.Data, &ctApp): succeeds exactly on a well-formed app
payload. -/
def unmarshalApp : EventData → Option CtApp
  | .app a => some a
  | _ => none

/-- json.Unmarshal(event.Data, &ctReq) for a scale request payload. -/
def unmarshalScaleRequest : EventData → Option CtScaleRequest
  | .scaleRequest r => some r
  | _ => none

/-- json.Unmarshal(event.Data, &ctRelease) for a release payload. -/
def unmarshalRelease : EventData → Option CtRelease
  | .release r => some r
  | _ => none

/-- json.Unmarshal(ctEvent.Data, &deploymentEvent) for a deployment event
payload. -/
def unmarshalDeploymentEvent : EventData → Option CtDeploymentEvent
  | .deploymentEvent d => some d
  | _ => none

/-- The protobuf App message as far as the handlers inspect it. -/
structure PApp where
  name : String
  labels : Labels
deriving DecidableEq, Repr

/-- The protobuf Release message as far as the handlers inspect it. -/
structure PRelease where
  name : String
  labels : Labels
deriving DecidableEq, Repr

/-- The protobuf ScaleRequest message as far as the handlers inspect it. -/
structure PScaleRequest where
  name : String
  state : ScaleState
deriving DecidableEq, Repr

/-- Modelled from the spec: `utils.ConvertApp` (external utils package) maps a
domain app to its protobuf message, whose resource name is `apps/{id}` and
whose labels are the app's meta map. -/
def convertApp (a : CtApp) : PApp :=
  ⟨"apps/" ++ a.id, a.meta⟩

/-- Modelled from the spec: `utils.ConvertRelease` maps a domain release to its
protobuf message with resource name `apps/{appID}/releases/{id}`. -/
def convertRelease (r : CtRelease) : PRelease :=
  ⟨"apps/" ++ r.appID ++ "/releases/" ++ r.id, r.labels⟩

/-- Modelled from the spec: `utils.ConvertScaleRequest` maps a domain scale
request to its protobuf message with resource name
`apps/{appID}/releases/{releaseID}/scale/{id}`; the state is carried over. -/
def convertScaleRequest (r : CtScaleRequest) : PScaleRequest :=
  ⟨"apps/" ++ r.appID ++ "/releases/" ++ r.releaseID ++ "/scale/" ++ r.id, r.state⟩

/-- Label filter operators (protobuf LabelFilter.Expression.Op). -/
inductive LabelFilterOp
  | opEq
  | opNotEq
  | opHasKey
  | opNotHasKey
deriving DecidableEq, Repr

/-- One (key, op, values) triple of a label filter. -/
structure LabelFilterExpression where
  key : String
  op : LabelFilterOp
  values : List String
deriving DecidableEq, Repr

/-- A label filter: a conjunction of expressions. -/
structure LabelFilter where
  expressions : List LabelFilterExpression
deriving DecidableEq, Repr

/-- Modelled from the spec: one expression of `protobuf.MatchLabelFilters`
(external protobuf package). OP_EQ: label value in values; OP_NOT_EQ: label
value not in values; OP_EXISTS: key present; OP_NOT_EXISTS: key absent. -/
def matchExpression (labels : Labels) (e : LabelFilterExpression) : Bool :=
  match e.op with
  | .opEq =>
    match lookupLabel labels e.key with
    | some v => e.values.contains v
    | none => false
  | .opNotEq =>
    match lookupLabel labels e.key with
    | some v => !(e.values.contains v)
    | none => true
  | .opHasKey => (lookupLabel labels e.key).isSome
  | .opNotHasKey => (lookupLabel labels e.key).isNone

/-- Modelled from the spec: all expressions of a filter AND together. -/
def matchLabelFilter (labels : Labels) (f : LabelFilter) : Bool :=
  f.expressions.all (matchExpression labels)

/-- Modelled from the spec: `protobuf.MatchLabelFilters` — multiple filters OR
together and the empty filter list matches everything. -/
def matchLabelFilters (labels : Labels) (fs : List LabelFilter) : Bool :=
  fs.isEmpty || fs.any (matchLabelFilter labels)

/-- data.PageToken: cursor (`BeforeID`) plus page size. -/
structure PageToken where
  beforeID : Option Int
  size : Int
deriving DecidableEq, Repr

/-- The dedupe-by-name prepend loop shared (textually) by
`prependScaleRequest` in StreamScales and `maybePrependRelease` in
StreamReleases: the new item goes to the head and every older entry carrying
the same resource name is skipped while the old list is copied over. -/
def prependDedupe {α : Type} (name : α → String) (r : α) (l : List α) : List α :=
  r :: l.filter (fun x => name x != name r)

/-! ## listApps (controller.go lines 269-346) and StreamApps (348-443) -/

/-- The in-handler filter loop of `listApps`: apps are kept when they pass the
name-filter id set (empty set = no constraint) and the label filters; the loop
appends converted apps, counting them in `n`, and breaks once `n` reaches
`pageSize`. -/
def selectApps (appIDs : List String) (lf : List LabelFilter) (pageSize : Int) :
    List CtApp → Int → List PApp
  | [], _ => []
  | a :: rest, n =>
    if !appIDs.isEmpty && !(appIDs.contains a.id || appIDs.contains a.name) then
      selectApps appIDs lf pageSize rest n
    else if !(matchLabelFilters a.meta lf) then
      selectApps appIDs lf pageSize rest n
    else
      convertApp a ::
        (if n + 1 = pageSize then [] else selectApps appIDs lf pageSize rest (n + 1))

/-- `listApps` step 1: when the request's page size is positive it overrides
the token's size. -/
def effToken (reqPageSize : Int) (t : PageToken) : PageToken :=
  if reqPageSize > 0 then { t with size := reqPageSize } else t

/-- `listApps` step 2: the effective page size — the request's if positive,
else the token's, and if that is zero, the length of the fetched page. -/
def effPageSize (reqPageSize : Int) (t : PageToken) (ctApps : List CtApp) : Int :=
  let ps := if reqPageSize > 0 then reqPageSize else t.size
  if ps = 0 then (ctApps.length : Int) else ps

/-- The body of `listApps`, with the external `appRepo.ListPage` abstracted
as `store` and the recursive self-call abstracted as `recurse` (called on the
store's next-page token — token round-trip through its string form is
identity per the page-token contract).  When fewer filtered apps than the
page size were collected and the store reports a next page, the handler
recurses; a recursive error is discarded and the current partial page is
returned with a nil error; a recursive success is prepended before the
current page with the deeper token. -/
def listAppsStep (store : PageToken → Except String (List CtApp × Option PageToken))
    (nameFilterIDs : List String) (lf : List LabelFilter) (reqPageSize : Int)
    (recurse : PageToken → Except String (List PApp × Option PageToken))
    (pageToken : PageToken) : Except String (List PApp × Option PageToken) :=
  match store (effToken reqPageSize pageToken) with
  | .error e => .error e
  | .ok (ctApps, nextPageToken) =>
    let pageSize := effPageSize reqPageSize pageToken ctApps
    let apps := selectApps nameFilterIDs lf pageSize ctApps 0
    if (apps.length : Int) < pageSize then
      match nextPageToken with
      | some npt =>
        match recurse npt with
        | .error _ => .ok (apps, some npt)
        | .ok (nextApps, npt2) => .ok (nextApps ++ apps, npt2)
      | none => .ok (apps, none)
    else .ok (apps, nextPageToken)

/-- `listApps` (lines 269-346): the step above tied with a recursion-depth
bound `fuel` (the Go recursion is bounded by the number of store pages; a
run out of fuel behaves like an erroring — hence discarded — recursive
call). -/
def listAppsGo (store : PageToken → Except String (List CtApp × Option PageToken))
    (nameFilterIDs : List String) (lf : List LabelFilter) (reqPageSize : Int) :
    Nat → PageToken → Except String (List PApp × Option PageToken)
  | 0, pageToken =>
    listAppsStep store nameFilterIDs lf reqPageSize
      (fun _ => .error "recursion depth exhausted") pageToken
  | fuel + 1, pageToken =>
    listAppsStep store nameFilterIDs lf reqPageSize
      (listAppsGo store nameFilterIDs lf reqPageSize fuel) pageToken

/-- The live-tail accept decision of StreamApps (the event loop body, lines
397-434): only `app` events can produce a response; a payload that fails to
unmarshal is skipped; the event is sent iff its op matches the requested
stream flags and the converted app passes the label filters.  The
`app_deletion` and `app_release` cases send nothing (TODO in the source).
Note that no event-id guard appears anywhere in this loop. -/
def streamAppsAccept (streamCreates streamUpdates : Bool) (lf : List LabelFilter)
    (event : Event) : Option PApp :=
  if event.objectType == eventTypeApp then
    match unmarshalApp event.data with
    | none => none
    | some ctApp =>
      let app := convertApp ctApp
      let shouldSend :=
        ((streamCreates && event.op == EventOp.create) ||
         (streamUpdates && event.op == EventOp.update)) &&
        matchLabelFilters app.labels lf
      if shouldSend then some app else none
  else none

/-- The whole live-tail phase of StreamApps: one single-app response per
accepted delivered event. -/
def streamAppsLive (streamCreates streamUpdates : Bool) (lf : List LabelFilter)
    (events : List Event) : List PApp :=
  events.filterMap (streamAppsAccept streamCreates streamUpdates lf)

/-- The snapshot store as a function of the committed event history: the apps
created by the `app`-create events committed so far (one flat page). -/
def appsFromEvents (committed : List Event) : List CtApp :=
  committed.filterMap (fun e =>
    if e.objectType == eventTypeApp && e.op == EventOp.create then
      unmarshalApp e.data
    else none)

def storeOfEvents (committed : List Event) :
    PageToken → Except String (List CtApp × Option PageToken) :=
  fun _ => .ok (appsFromEvents committed, none)

/-- The largest event id in a set of committed events (0 if none): the newest
event whose effect the snapshot can observe. -/
def maxEventID (events : List Event) : Int :=
  events.foldl (fun m e => max m e.id) 0

/-- A full StreamApps run over a deterministic schedule: the snapshot lists
the store state produced by `committed`, then the live tail processes the
events delivered on the subscription channel.  Since `subscribeEvents` is
called before `listApps` in the handler, an event committed between the
subscribe and the list query is both reflected in the snapshot and delivered
on the channel.  Output: one response per send (the snapshot page first). -/
def streamAppsRun (streamCreates streamUpdates : Bool) (lf : List LabelFilter)
    (nameFilterIDs : List String) (reqPageSize : Int) (pageToken : PageToken)
    (committed : List Event) (delivered : List Event) : List (List PApp) :=
  match listAppsGo (storeOfEvents committed) nameFilterIDs lf reqPageSize 1 pageToken with
  | .error _ => []
  | .ok (apps, _) =>
    apps :: (streamAppsLive streamCreates streamUpdates lf delivered).map (fun a => [a])

/-! ## StreamScales (controller.go lines 552-672) -/

/-- The in-memory state of a StreamScales call: the `currID` dedup cursor and
the maintained list of scale requests. -/
structure ScalesState where
  currID : Int
  scaleRequests : List PScaleRequest
deriving DecidableEq, Repr

/-- `prependScaleRequest` (lines 597-614): unmarshal the event payload (an
error is returned to the caller, which logs and continues), convert it, and
prepend it to the list, dropping older entries with the same resource name. -/
def prependScaleRequest (event : Event) (l : List PScaleRequest) :
    Option (List PScaleRequest) :=
  (unmarshalScaleRequest event.data).map
    (fun ctReq => prependDedupe PScaleRequest.name (convertScaleRequest ctReq) l)

/-- The shared body of the StreamScales snapshot and live loops once an event
is admitted: set `currID` to the event's id, then prepend the parsed request
(a parse failure is logged and leaves the list untouched). -/
def scalesIngest (s : ScalesState) (e : Event) : ScalesState :=
  let s1 : ScalesState := { s with currID := e.id }
  match prependScaleRequest e s1.scaleRequests with
  | none => s1
  | some l => { s1 with scaleRequests := l }

/-- One iteration of the StreamScales live-tail loop (lines 647-666): events
with `id ≤ currID` are dropped ("avoid overlap between list and stream");
otherwise `currID` is advanced and the event is prepended, a parse failure
leaving the list untouched. -/
def streamScalesLiveStep (s : ScalesState) (e : Event) : ScalesState :=
  if e.id ≤ s.currID then s else scalesIngest s e

/-- The StreamScales live-tail loop over the delivered events. -/
def streamScalesLive (s : ScalesState) (events : List Event) : ScalesState :=
  events.foldl streamScalesLiveStep s

/-- The StreamScales snapshot loop (lines 624-639): `ListEvents` returns the
scale-request events in descending id order; the handler iterates in reverse,
setting `currID` to each event's id (so it ends at the id of the newest, i.e.
first, listed event) and prepending each request, skipping parse failures. -/
def streamScalesSnapshot (list : List Event) : ScalesState :=
  list.reverse.foldl scalesIngest ⟨0, []⟩

/-! ## StreamReleases (controller.go lines 674-859) -/

/-- The three-way outcome of `maybeAcceptRelease` (lines 728-755): a parse
error (returned to the caller, which logs and continues), a rejection by the
name or label filters, or an accepted converted release. -/
inductive AcceptResult
  | parseError
  | rejected
  | accepted (r : PRelease)
deriving DecidableEq, Repr

/-- `maybeAcceptRelease`: when release-id name filters are present, an event
whose object id is not among them is rejected unless its app id is among the
app-id filters (and rejected outright when there are no app-id filters); then
the payload is unmarshalled and the label filters applied. -/
def maybeAcceptRelease (releaseIDs appIDs : List String) (lf : List LabelFilter)
    (event : Event) : AcceptResult :=
  if !releaseIDs.isEmpty && !(releaseIDs.contains event.objectID) &&
      !(!appIDs.isEmpty && appIDs.contains event.appID) then
    .rejected
  else
    match unmarshalRelease event.data with
    | none => .parseError
    | some ctRelease =>
      let r := convertRelease ctRelease
      if !(matchLabelFilters r.labels lf) then .rejected
      else .accepted r

/-- `maybePrependRelease` (lines 757-778): prepend the accepted release with
dedupe-by-name; a parse error or a rejection leaves the list unchanged. -/
def maybePrependRelease (releaseIDs appIDs : List String) (lf : List LabelFilter)
    (event : Event) (releases : List PRelease) : List PRelease :=
  match maybeAcceptRelease releaseIDs appIDs lf event with
  | .accepted r => prependDedupe PRelease.name r releases
  | _ => releases

/-- The snapshot page trimming of StreamReleases (lines 801-806): when
`pageSize == 0` or exactly `pageSize+1` events were returned (and the list is
nonempty), the last (oldest) event is dropped and a next-page token is built
from the id of the first element of the remaining window; `none` models the
index-out-of-range panic of `list[0]` on the emptied slice. -/
def streamReleasesPage (pageSize : Int) (list : List Event) :
    Option (List Event × Option PageToken) :=
  if (pageSize = 0 ∨ (list.length : Int) = pageSize + 1) ∧ list.length > 0 then
    match list.dropLast with
    | [] => none
    | e :: rest => some (e :: rest, some ⟨some e.id, pageSize⟩)
  else some (list, none)

/-- The row count requested from `eventRepo.ListEvents` by the StreamReleases
snapshot (lines 789-792): one more than the page size when it is positive
(`0` requests all rows). -/
def releasesRequestCount (pageSize : Int) : Int :=
  if pageSize > 0 then pageSize + 1 else pageSize

/-- The in-memory state of a StreamReleases call. -/
structure ReleasesState where
  currID : Int
  releases : List PRelease
deriving DecidableEq, Repr

/-- The body of the StreamReleases snapshot loop for one event: set `currID`
to the event's id, then maybe prepend the accepted release. -/
def releasesIngest (releaseIDs appIDs : List String) (lf : List LabelFilter)
    (s : ReleasesState) (e : Event) : ReleasesState :=
  let s1 : ReleasesState := { s with currID := e.id }
  { s1 with releases := maybePrependRelease releaseIDs appIDs lf e s1.releases }

/-- The StreamReleases snapshot phase (lines 788-818): `currID` starts at the
page token's `beforeID` (0 when absent); the trimmed event window is walked in
reverse, setting `currID` to each id and prepending accepted releases. -/
def streamReleasesSnapshot (releaseIDs appIDs : List String) (lf : List LabelFilter)
    (pageToken : PageToken) (pageSize : Int) (list : List Event) :
    Option (ReleasesState × Option PageToken) :=
  match streamReleasesPage pageSize list with
  | none => none
  | some (window, npt) =>
    let st := window.reverse.foldl (releasesIngest releaseIDs appIDs lf)
      ⟨pageToken.beforeID.getD 0, []⟩
    some (st, npt)

/-- One iteration of the StreamReleases live-tail loop (lines 827-853): drop
events with `id ≤ currID`, advance `currID`, and emit one single-release
response when the event is accepted (parse failures are logged and skipped). -/
def streamReleasesLiveStep (releaseIDs appIDs : List String) (lf : List LabelFilter)
    (s : ReleasesState) (e : Event) : ReleasesState × Option PRelease :=
  if e.id ≤ s.currID then (s, none)
  else
    let s1 : ReleasesState := { s with currID := e.id }
    match maybeAcceptRelease releaseIDs appIDs lf e with
    | .accepted r => (s1, some r)
    | _ => (s1, none)

/-- The StreamReleases live-tail loop, collecting the emitted responses. -/
def streamReleasesLive (releaseIDs appIDs : List String) (lf : List LabelFilter) :
    ReleasesState → List Event → ReleasesState × List PRelease
  | s, [] => (s, [])
  | s, e :: rest =>
    let (s1, out) := streamReleasesLiveStep releaseIDs appIDs lf s e
    let (s2, outs) := streamReleasesLive releaseIDs appIDs lf s1 rest
    (s2, match out with
         | some r => r :: outs
         | none => outs)

/-! ## StreamFormations (controller.go lines 861-974) -/

def insertAssoc (k v : String) (m : List (String × String)) : List (String × String) :=
  (k, v) :: m.filter (fun p => p.1 != k)

def lookupAssoc (m : List (String × String)) (k : String) : String :=
  ((m.find? (fun p => p.1 == k)).map (·.2)).getD ""

/-- The StreamFormations event-loop goroutine (lines 933-961), recording the
argument pair of every `refreshFormation` call.  `refreshOk` abstracts whether
the refresh (a store round trip) succeeds; on failure the goroutine sends the
error and returns.  Faithful to the source, `appID` and `releaseID` are
redeclared (`var appID string`) at the top of every iteration, so the
assignments made after receiving an event are dead stores. -/
def streamFormationsLoop (refreshOk : String → String → Bool) :
    List (String × String) → List Event → List (String × String)
  | _, [] =>
    -- last iteration: refresh is called (error or not), then the closed
    -- channel is observed and the loop breaks
    let appID : String := ""
    let releaseID : String := ""
    [(appID, releaseID)]
  | releaseIDs, e :: rest =>
    let appID : String := ""
    let releaseID : String := ""
    if refreshOk appID releaseID = false then [(appID, releaseID)]
    else
      (appID, releaseID) ::
        (let releaseIDs1 :=
          if e.objectType == eventTypeAppRelease then
            insertAssoc e.appID e.objectID releaseIDs
          else releaseIDs
        let appID1 := e.appID
        let releaseID1 := lookupAssoc releaseIDs1 appID1
        let _ := (appID1, releaseID1)
        streamFormationsLoop refreshOk releaseIDs1 rest)

/-! ## createScale (controller.go lines 481-546) -/

/-- One delivery observed by the `createScale` select loop: an event on the
subscription channel, the channel closing, or the `time.After` timer firing. -/
inductive ScaleLoopIn
  | ev (e : Event)
  | closed
  | timedOut
deriving DecidableEq, Repr

/-- The possible results of `createScale`'s wait loop and exit path. -/
inductive ScaleOutcome
  | cancelledErr (msg : String)
  | timeoutErr (msg : String)
  | subError (msg : String)
  | ok (sr : PScaleRequest)
  | blocked
deriving DecidableEq, Repr

/-- The timeout error message (line 537), carrying
`ct.DefaultScaleTimeout.Seconds()`. -/
def timeoutMessage (secs : Nat) : String :=
  "timed out waiting for scale to complete (waited " ++ toString secs ++ " seconds)"

/-- The exit path of `createScale` (lines 541-545): report the subscription
error cell if set, else return the conversion of the locally-built
`scaleReq` record (inserted in state pending at line 497 and never updated by
the loop). -/
def createScaleFinish (scaleReq : CtScaleRequest) (subErr : Option String) :
    ScaleOutcome :=
  match subErr with
  | some m => .subError m
  | none => .ok (convertScaleRequest scaleReq)

/-- The `createScale` select loop (lines 510-539) over a schedule of
deliveries: non-scale-request events, parse failures, id mismatches and
pending states are skipped; a matching cancelled event fails with
"scale request cancelled"; a matching complete event or the channel closing
breaks out to the exit path; the timer firing fails with the timeout message.
An exhausted schedule with no close/timeout (`blocked`) models the goroutine
still waiting. -/
def createScaleLoop (scaleReq : CtScaleRequest) (secs : Nat) (subErr : Option String) :
    List ScaleLoopIn → ScaleOutcome
  | [] => .blocked
  | .closed :: _ => createScaleFinish scaleReq subErr
  | .timedOut :: _ => .timeoutErr (timeoutMessage secs)
  | .ev e :: rest =>
    if e.objectType == eventTypeScaleRequest then
      match unmarshalScaleRequest e.data with
      | none => createScaleLoop scaleReq secs subErr rest
      | some req =>
        if req.id ≠ scaleReq.id then createScaleLoop scaleReq secs subErr rest
        else
          match req.state with
          | .cancelled => .cancelledErr "scale request cancelled"
          | .complete => createScaleFinish scaleReq subErr
          | .pending => createScaleLoop scaleReq secs subErr rest
    else createScaleLoop scaleReq secs subErr rest

/-- An input the `createScale` loop skips (keeps waiting past): any event that
is not a scale-request event carrying a well-formed payload whose id matches
the inserted request and whose state is terminal. -/
def scaleSkips (reqID : String) : ScaleLoopIn → Bool
  | .ev e =>
    if e.objectType == eventTypeScaleRequest then
      match unmarshalScaleRequest e.data with
      | none => true
      | some r => r.id != reqID || r.state == ScaleState.pending
    else true
  | .closed => false
  | .timedOut => false

/-! ## StreamDeployments (controller.go lines 1026-1106) -/

/-- The protobuf ExpandedDeployment as far as the live loop inspects it. -/
structure PExpandedDeployment where
  status : String
  releaseType : String
deriving DecidableEq, Repr

/-- Modelled from the spec: `protobuf.NewReleaseTypeMatcher(typeFilters).Match`
— a matcher over release-type tags where an empty filter list accepts all. -/
def releaseTypeMatch (typeFilters : List String) (t : String) : Bool :=
  typeFilters.isEmpty || typeFilters.contains t

/-- One iteration of the StreamDeployments live-tail loop (lines 1075-1100):
unmarshal the deployment event (failures logged and skipped), re-fetch the
expanded deployment (failures logged and skipped), overwrite its status with
the event's, and send it if it passes the type filter. -/
def streamDeploymentsLiveStep (getExpanded : String → Except String PExpandedDeployment)
    (typeFilters : List String) (e : Event) : Option PExpandedDeployment :=
  match unmarshalDeploymentEvent e.data with
  | none => none
  | some de =>
    match getExpanded e.objectID with
    | .error _ => none
    | .ok ctd =>
      let d : PExpandedDeployment := { ctd with status := de.status }
      if releaseTypeMatch typeFilters d.releaseType then some d else none

/-- The StreamDeployments live tail: one response per accepted event. -/
def streamDeploymentsLive (getExpanded : String → Except String PExpandedDeployment)
    (typeFilters : List String) (events : List Event) : List PExpandedDeployment :=
  events.filterMap (streamDeploymentsLiveStep getExpanded typeFilters)

/-! ## CreateDeployment (controller.go lines 1124-1191) -/

/-- The externally observable actions of the CreateDeployment event loop: an
internal synchronous scale invocation (recording its `parent` argument) and a
send on the outbound stream. -/
inductive DeployAction
  | scaleCall (parent : String)
  | sendEvent (de : CtDeploymentEvent) (status : String)
deriving DecidableEq, Repr

/-- The CreateDeployment event loop (lines 1141-1190): skip non-deployment
events, parse failures and fetch failures; when the re-fetched deployment is
complete and the request embeds a scale request, call `s.createScale` for the
new release — both its returned value and its error are discarded (`scale`
is consulted only through a discarded binding, mirroring the bare call) —
then send the delta; a failed status returns the event's error after the
send, a complete status breaks to the exit path, anything else loops. -/
def createDeploymentLoop (scale : String → ScaleOutcome)
    (getDep : String → Except String CtDeployment) (hasScaleReq : Bool)
    (subErr : Option String) : List Event → List DeployAction × Except String Unit
  | [] =>
    ([], match subErr with
         | some m => .error m
         | none => .ok ())
  | e :: rest =>
    if e.objectType != eventTypeDeployment then
      createDeploymentLoop scale getDep hasScaleReq subErr rest
    else
      match unmarshalDeploymentEvent e.data with
      | none => createDeploymentLoop scale getDep hasScaleReq subErr rest
      | some de =>
        match getDep e.objectID with
        | .error _ => createDeploymentLoop scale getDep hasScaleReq subErr rest
        | .ok d =>
          let parent := "apps/" ++ d.appID ++ "/releases/" ++ d.newReleaseID
          let scaleActs : List DeployAction :=
            if d.status == "complete" && hasScaleReq then
              let _ := scale parent
              [.scaleCall parent]
            else []
          let acts := scaleActs ++ [.sendEvent de d.status]
          if d.status == "failed" then (acts, .error de.error)
          else if d.status == "complete" then
            (acts, match subErr with
                   | some m => .error m
                   | none => .ok ())
          else
            let (as, r) := createDeploymentLoop scale getDep hasScaleReq subErr rest
            (acts ++ as, r)

/-! ## The per-call subscription object (controller.go lines 163-218) -/

/-- An underlying `data.EventSubscriber`: its buffered channel contents, its
closed flag and its `Err` field. -/
structure DataEventSubscriber where
  queue : List Event
  closed : Bool
  err : Option String
deriving DecidableEq, Repr

/-- The grpc-side `EventListener` built by `subscribeEvents`: the merged
`Events` channel (buffer plus closed flag), the underlying subscribers and
the aggregated error cell. -/
structure GrpcEventListener where
  mergedQueue : List Event
  mergedClosed : Bool
  subs : List DataEventSubscriber
  err : Option String
deriving DecidableEq, Repr

/-- `subscribeEvents` (lines 186-217) builds the subscription object with a
freshly made (open) merged channel over the underlying subscribers. -/
def subscribeEventsModel (subs : List DataEventSubscriber) : GrpcEventListener :=
  ⟨[], false, subs, none⟩

/-- `EventListener.Close` (lines 170-177): close every underlying subscriber
and, via the once-guard, record the first non-nil subscriber error.  No
operation on the merged channel appears in its body. -/
def elClose (el : GrpcEventListener) : GrpcEventListener :=
  { el with
    subs := el.subs.map (fun s => { s with closed := true }),
    err := el.err <|> el.subs.findSome? (fun s => s.err) }

/-- The forwarder goroutine spawned per subscriber (lines 206-214): it copies
events from its source channel to the merged channel until the source closes,
then breaks out of its loop.  Its body contains no close of the merged
channel. -/
def runForwarder (src : DataEventSubscriber) (el : GrpcEventListener) :
    GrpcEventListener :=
  { el with mergedQueue := el.mergedQueue ++ src.queue }

/-- All forwarders run to completion (each source closed and drained). -/
def runAllForwarders (el : GrpcEventListener) : GrpcEventListener :=
  el.subs.foldl (fun acc s => runForwarder s acc) el

/-! ## Auxiliary lemmas -/

theorem prependDedupe_props {α : Type} (name : α → String) (r : α) (l : List α) :
    (prependDedupe name r l).head? = some r ∧
    (prependDedupe name r l).countP (fun x => name x == name r) = 1 ∧
    (prependDedupe name r l).tail = l.filter (fun x => name x != name r) ∧
    (l.filter (fun x => name x != name r)).Sublist l := by
  refine ⟨rfl, ?_, rfl, List.filter_sublist l⟩
  have h0 : List.countP (fun x => name x == name r)
      (l.filter (fun x => name x != name r)) = 0 := by
    rw [List.countP_eq_zero]
    intro a ha
    have hne := List.of_mem_filter ha
    simpa using hne
  simp [prependDedupe, List.countP_cons, h0]

theorem scalesIngest_currID (s : ScalesState) (e : Event) :
    (scalesIngest s e).currID = e.id := by
  simp only [scalesIngest]
  cases hp : prependScaleRequest e s.scaleRequests <;> simp [hp]

theorem streamScalesLiveStep_currID_mono (s : ScalesState) (e : Event) :
    s.currID ≤ (streamScalesLiveStep s e).currID := by
  unfold streamScalesLiveStep
  by_cases h : e.id ≤ s.currID
  · simp [h]
  · simp [h, scalesIngest_currID]
    omega

theorem streamScalesLive_currID_mono (events : List Event) :
    ∀ s : ScalesState, s.currID ≤ (streamScalesLive s events).currID := by
  induction events with
  | nil => intro s; exact le_refl _
  | cons e rest ih =>
    intro s
    exact le_trans (streamScalesLiveStep_currID_mono s e) (ih (streamScalesLiveStep s e))

theorem streamScalesLiveStep_change_gt (s : ScalesState) (e : Event)
    (h : (streamScalesLiveStep s e).scaleRequests ≠ s.scaleRequests) :
    s.currID < e.id := by
  by_contra h2
  push_neg at h2
  simp [streamScalesLiveStep, h2] at h

theorem releasesIngest_currID (releaseIDs appIDs : List String) (lf : List LabelFilter)
    (s : ReleasesState) (e : Event) :
    (releasesIngest releaseIDs appIDs lf s e).currID = e.id := rfl

theorem streamReleasesLiveStep_currID_mono (releaseIDs appIDs : List String)
    (lf : List LabelFilter) (s : ReleasesState) (e : Event) :
    s.currID ≤ (streamReleasesLiveStep releaseIDs appIDs lf s e).1.currID := by
  unfold streamReleasesLiveStep
  by_cases h : e.id ≤ s.currID
  · simp [h]
  · cases hacc : maybeAcceptRelease releaseIDs appIDs lf e <;> simp [h, hacc] <;> omega

theorem streamReleasesLive_fst (releaseIDs appIDs : List String) (lf : List LabelFilter)
    (events : List Event) :
    ∀ s : ReleasesState,
      (streamReleasesLive releaseIDs appIDs lf s events).1 =
        events.foldl (fun s e => (streamReleasesLiveStep releaseIDs appIDs lf s e).1) s := by
  induction events with
  | nil => intro s; rfl
  | cons e rest ih =>
    intro s
    simp only [streamReleasesLive, List.foldl]
    cases hstep : streamReleasesLiveStep releaseIDs appIDs lf s e with
    | mk s1 out =>
      have h2 := ih s1
      cases hrec : streamReleasesLive releaseIDs appIDs lf s1 rest with
      | mk s2 outs =>
        rw [hrec] at h2
        cases out <;> simp [hstep, h2.symm]

theorem streamReleasesLive_currID_mono (releaseIDs appIDs : List String)
    (lf : List LabelFilter) (events : List Event) (s : ReleasesState) :
    s.currID ≤ (streamReleasesLive releaseIDs appIDs lf s events).1.currID := by
  rw [streamReleasesLive_fst]
  induction events generalizing s with
  | nil => exact le_refl _
  | cons e rest ih =>
    exact le_trans (streamReleasesLiveStep_currID_mono releaseIDs appIDs lf s e)
      (ih (streamReleasesLiveStep releaseIDs appIDs lf s e).1)

theorem streamReleasesLiveStep_emit_gt (releaseIDs appIDs : List String)
    (lf : List LabelFilter) (s : ReleasesState) (e : Event) (r : PRelease)
    (h : (streamReleasesLiveStep releaseIDs appIDs lf s e).2 = some r) :
    s.currID < e.id := by
  by_contra h2
  push_neg at h2
  simp [streamReleasesLiveStep, h2] at h

theorem foldl_scalesIngest_currID (xs : List Event) :
    ∀ s : ScalesState,
      (xs.foldl scalesIngest s).currID = ((xs.getLast?).map Event.id).getD s.currID := by
  induction xs with
  | nil => intro s; rfl
  | cons x t ih =>
    intro s
    simp only [List.foldl]
    rw [ih]
    cases t with
    | nil => simp [List.getLast?, scalesIngest_currID]
    | cons y u =>
      cases he : (y :: u).getLast? with
      | none => simp at he
      | some e => simp [List.getLast?_cons_cons, he]

theorem streamScalesSnapshot_currID (list : List Event) :
    (streamScalesSnapshot list).currID = ((list.head?).map Event.id).getD 0 := by
  unfold streamScalesSnapshot
  rw [foldl_scalesIngest_currID, List.getLast?_reverse]

theorem foldl_max_id_fixed (t : List Event) :
    ∀ m : Int, (∀ x ∈ t, x.id ≤ m) →
      t.foldl (fun m e => max m e.id) m = m := by
  induction t with
  | nil => intro m _; rfl
  | cons x u ih =>
    intro m hm
    simp only [List.foldl]
    have hx : x.id ≤ m := hm x (by simp)
    rw [max_eq_left hx]
    exact ih m (fun y hy => hm y (by simp [hy]))

theorem head_id_eq_maxEventID (l : List Event)
    (hsort : l.Pairwise (fun a b => b.id ≤ a.id)) (hpos : ∀ e ∈ l, 0 ≤ e.id) :
    ((l.head?).map Event.id).getD 0 = maxEventID l := by
  cases l with
  | nil => rfl
  | cons e t =>
    have h0 : (0 : Int) ≤ e.id := hpos e (by simp)
    have ht : ∀ x ∈ t, x.id ≤ e.id := by
      intro x hx
      exact (List.pairwise_cons.mp hsort).1 x hx
    simp only [List.head?, Option.map, Option.getD, maxEventID, List.foldl]
    rw [max_eq_right h0]
    exact (foldl_max_id_fixed t e.id ht).symm

/-! ## Claims -/

/-- Claim C5: in the handlers that maintain an in-memory list (StreamScales
via `prependScaleRequest`, StreamReleases via `maybePrependRelease`), after
prepending an accepted item with resource name N the list contains exactly one
element whose name is N and it sits at index 0; the remaining elements are the
old entries with other names, a sublist of the old list (their relative order
is preserved). -/
theorem prepend_dedupes_by_name :
    (∀ (e : Event) (ct : CtScaleRequest) (l l2 : List PScaleRequest),
      unmarshalScaleRequest e.data = some ct →
      prependScaleRequest e l = some l2 →
      l2.head? = some (convertScaleRequest ct) ∧
      l2.countP (fun x => x.name == (convertScaleRequest ct).name) = 1 ∧
      l2.tail = l.filter (fun x => x.name != (convertScaleRequest ct).name) ∧
      (l.filter (fun x => x.name != (convertScaleRequest ct).name)).Sublist l) ∧
    (∀ (releaseIDs appIDs : List String) (lf : List LabelFilter) (e : Event)
       (r : PRelease) (l : List PRelease),
      maybeAcceptRelease releaseIDs appIDs lf e = .accepted r →
      (maybePrependRelease releaseIDs appIDs lf e l).head? = some r ∧
      (maybePrependRelease releaseIDs appIDs lf e l).countP
        (fun x => x.name == r.name) = 1 ∧
      (maybePrependRelease releaseIDs appIDs lf e l).tail
        = l.filter (fun x => x.name != r.name) ∧
      (l.filter (fun x => x.name != r.name)).Sublist l) := by
  constructor
  · intro e ct l l2 hct hl2
    simp only [prependScaleRequest, hct, Option.map_some'] at hl2
    cases hl2
    exact prependDedupe_props PScaleRequest.name (convertScaleRequest ct) l
  · intro releaseIDs appIDs lf e r l hacc
    simp only [maybePrependRelease, hacc]
    exact prependDedupe_props PRelease.name r l

/-- Witness for C5: a concrete scale-request event replacing an older entry
with the same resource name, and a concrete accepted release prepended. -/
theorem prepend_dedupes_by_name_witness :
    unmarshalScaleRequest (EventData.scaleRequest ⟨"s1", "a", "r1", .complete⟩)
      = some ⟨"s1", "a", "r1", .complete⟩ ∧
    prependScaleRequest
      ⟨4, "a", "scale_request", "s1", .update,
        .scaleRequest ⟨"s1", "a", "r1", .complete⟩⟩
      [⟨"apps/a/releases/r1/scale/s1", .pending⟩, ⟨"apps/a/releases/r1/scale/s0", .complete⟩]
      = some (prependDedupe PScaleRequest.name
          (convertScaleRequest ⟨"s1", "a", "r1", .complete⟩)
          [⟨"apps/a/releases/r1/scale/s1", .pending⟩,
           ⟨"apps/a/releases/r1/scale/s0", .complete⟩]) ∧
    (prependDedupe PScaleRequest.name (convertScaleRequest ⟨"s1", "a", "r1", .complete⟩)
        [⟨"apps/a/releases/r1/scale/s1", .pending⟩,
         ⟨"apps/a/releases/r1/scale/s0", .complete⟩]).countP
      (fun x => x.name == (convertScaleRequest (⟨"s1", "a", "r1", .complete⟩ : CtScaleRequest)).name) = 1 := by
  refine ⟨rfl, rfl, ?_⟩
  exact (prepend_dedupes_by_name.1
    ⟨4, "a", "scale_request", "s1", .update, .scaleRequest ⟨"s1", "a", "r1", .complete⟩⟩
    ⟨"s1", "a", "r1", .complete⟩
    [⟨"apps/a/releases/r1/scale/s1", .pending⟩, ⟨"apps/a/releases/r1/scale/s0", .complete⟩]
    _ rfl rfl).2.1

/-- Claim C8: every iteration of the StreamFormations event loop calls
`refreshFormation` with empty-string `appID` and `releaseID`, because both
variables are redeclared (`var appID string`) at the top of the loop body; the
ids extracted from a received event are dead stores and never reach a refresh
call. -/
theorem streamFormations_refresh_always_empty :
    ∀ (refreshOk : String → String → Bool) (releaseIDs : List (String × String))
      (events : List Event) (p : String × String),
      p ∈ streamFormationsLoop refreshOk releaseIDs events → p = ("", "") := by
  intro f rel events
  induction events generalizing rel with
  | nil =>
    intro p hp
    simpa [streamFormationsLoop] using hp
  | cons e rest ih =>
    intro p hp
    by_cases hf : f "" "" = false
    · simp [streamFormationsLoop, hf] at hp
      exact hp
    · simp [streamFormationsLoop, hf] at hp
      rcases hp with hp | hp
      · exact hp
      · exact ih _ _ hp

/-- Witness for C8: a concrete run with one app-release event; the single
refresh-call argument pair recorded in it is the empty pair. -/
theorem streamFormations_refresh_always_empty_witness :
    (("", "") ∈ streamFormationsLoop (fun _ _ => true) [("a", "r0")]
      [⟨3, "a", "app_release", "r1", .create, .malformed⟩]) ∧
    (("", "") : String × String) = ("", "") := by
  refine ⟨by decide, ?_⟩
  exact streamFormations_refresh_always_empty (fun _ _ => true) [("a", "r0")]
    [⟨3, "a", "app_release", "r1", .create, .malformed⟩] ("", "") (by decide)

/-- Claim C2: after `Close()` every underlying subscriber is indeed closed and
the forwarders drain and exit, but no code path ever closes the merged
`Events` channel — `subscribeEvents` creates it, `EventListener.Close` only
closes the underlying subscribers, and the forwarder goroutines merely break
out of their loops — so its closed flag is invariant under `Close` plus all
forwarders running to completion, and on a concrete one-subscriber
subscription it is still open afterwards: a handler blocked receiving on the
merged channel never observes closure. -/
theorem close_never_closes_merged_channel :
    (∀ el : GrpcEventListener,
      (runAllForwarders (elClose el)).mergedClosed = el.mergedClosed ∧
      (runAllForwarders (elClose el)).subs.all (fun s => s.closed) = true) ∧
    ((runAllForwarders (elClose (subscribeEventsModel
        [⟨[⟨1, "a", "app", "a", .create, .malformed⟩], true, none⟩]))).mergedClosed
      = false) := by
  have hfold1 : ∀ (subs : List DataEventSubscriber) (x : GrpcEventListener),
      (subs.foldl (fun acc s => runForwarder s acc) x).mergedClosed = x.mergedClosed := by
    intro subs
    induction subs with
    | nil => intro x; rfl
    | cons a t ih => intro x; simpa [runForwarder] using ih _
  have hfold2 : ∀ (subs : List DataEventSubscriber) (x : GrpcEventListener),
      (subs.foldl (fun acc s => runForwarder s acc) x).subs = x.subs := by
    intro subs
    induction subs with
    | nil => intro x; rfl
    | cons a t ih => intro x; simpa [runForwarder] using ih _
  constructor
  · intro el
    constructor
    · simpa [runAllForwarders, elClose] using hfold1 _ _
    · rw [runAllForwarders, hfold2]
      simp [elClose, List.all_map]
  · rw [runAllForwarders, hfold1]
    rfl

theorem createScaleFinish_ok (req : CtScaleRequest) (subErr : Option String)
    (sr : PScaleRequest) (h : createScaleFinish req subErr = .ok sr) :
    sr = convertScaleRequest req ∧ sr.state = req.state := by
  cases subErr <;> simp [createScaleFinish] at h
  refine ⟨h.symm, ?_⟩
  rw [← h]
  exact rfl

/-- Counterexample to claim C3: a matching scale-request event with state
`complete` arrives and the subscription error cell is nil, yet the RPC returns
the conversion of the locally-built record — whose state is still `pending`
as inserted — not a scale request in state `complete`: the loop breaks on the
event without copying its updated state into `scaleReq` (lines 531-532 and
545). -/
theorem createScale_stale_state_cex :
    createScaleLoop ⟨"s1", "a", "r1", .pending⟩ 30 none
      [.ev ⟨8, "a", "scale_request", "s1", .update,
        .scaleRequest ⟨"s1", "a", "r1", .complete⟩⟩]
      = .ok ⟨"apps/a/releases/r1/scale/s1", .pending⟩ ∧
    ScaleState.pending ≠ ScaleState.complete := by
  decide

/-- Claim C3 (amended): when a matching complete event arrives and the error
cell is nil, `createScale` returns successfully, but the returned scale
request is the conversion of the originally inserted record — its state field
is whatever was inserted (pending), not the `complete` state carried by the
event. -/
theorem createScale_returns_inserted_request :
    (∀ (req : CtScaleRequest) (secs : Nat) (subErr : Option String)
       (inputs : List ScaleLoopIn) (sr : PScaleRequest),
      createScaleLoop req secs subErr inputs = .ok sr →
      sr = convertScaleRequest req ∧ sr.state = req.state) ∧
    (∀ (req : CtScaleRequest) (secs : Nat) (e : Event) (r : CtScaleRequest)
       (rest : List ScaleLoopIn),
      e.objectType = eventTypeScaleRequest →
      unmarshalScaleRequest e.data = some r →
      r.id = req.id → r.state = .complete →
      createScaleLoop req secs none (.ev e :: rest)
        = .ok (convertScaleRequest req)) := by
  constructor
  · intro req secs subErr inputs
    induction inputs with
    | nil =>
      intro sr h
      simp [createScaleLoop] at h
    | cons i rest ih =>
      intro sr h
      cases i with
      | closed => exact createScaleFinish_ok req subErr sr h
      | timedOut => simp [createScaleLoop] at h
      | ev e =>
        rw [createScaleLoop] at h
        split at h
        · split at h
          · exact ih sr h
          · split at h
            · exact ih sr h
            · split at h
              · simp at h
              · exact createScaleFinish_ok req subErr sr h
              · exact ih sr h
        · exact ih sr h
  · intro req secs e r rest h1 h2 h3 h4
    have h1b : (e.objectType == eventTypeScaleRequest) = true := by simp [h1]
    simp only [createScaleLoop, h1b, if_true, h2, h3, h4, ne_eq, not_true_eq_false,
      if_false, createScaleFinish]

/-- Witness for C3: the complete-event branch on concrete inputs; the result
is the converted inserted record and its state is the inserted `pending`. -/
theorem createScale_returns_inserted_request_witness :
    createScaleLoop ⟨"s2", "b", "r2", .pending⟩ 60 none
      [.ev ⟨9, "b", "scale_request", "s2", .update,
        .scaleRequest ⟨"s2", "b", "r2", .complete⟩⟩, .closed]
      = .ok (convertScaleRequest ⟨"s2", "b", "r2", .pending⟩) ∧
    (convertScaleRequest (⟨"s2", "b", "r2", .pending⟩ : CtScaleRequest)).state
      = ScaleState.pending := by
  constructor
  · exact createScale_returns_inserted_request.2 ⟨"s2", "b", "r2", .pending⟩ 60
      ⟨9, "b", "scale_request", "s2", .update,
        .scaleRequest ⟨"s2", "b", "r2", .complete⟩⟩
      ⟨"s2", "b", "r2", .complete⟩ [.closed] rfl rfl rfl rfl
  · rfl

theorem createScaleLoop_skip (req : CtScaleRequest) (secs : Nat)
    (subErr : Option String) (i : ScaleLoopIn) (rest : List ScaleLoopIn)
    (h : scaleSkips req.id i = true) :
    createScaleLoop req secs subErr (i :: rest)
      = createScaleLoop req secs subErr rest := by
  cases i with
  | closed => simp [scaleSkips] at h
  | timedOut => simp [scaleSkips] at h
  | ev e =>
    rw [createScaleLoop]
    simp only [scaleSkips] at h
    by_cases h1 : e.objectType == eventTypeScaleRequest
    · rw [if_pos h1]
      rw [if_pos h1] at h
      cases h2 : unmarshalScaleRequest e.data with
      | none => rfl
      | some r =>
        rw [h2] at h
        simp only [Bool.or_eq_true, bne_iff_ne, beq_iff_eq] at h
        rcases h with h | h
        · simp [h]
        · by_cases hid : r.id = req.id
          · simp [hid, h]
          · simp [hid]
    · rw [if_neg h1]

theorem createScaleLoop_skip_all (req : CtScaleRequest) (secs : Nat)
    (subErr : Option String) (pre rest : List ScaleLoopIn)
    (h : ∀ i ∈ pre, scaleSkips req.id i = true) :
    createScaleLoop req secs subErr (pre ++ rest)
      = createScaleLoop req secs subErr rest := by
  induction pre with
  | nil => rfl
  | cons i t ih =>
    rw [List.cons_append, createScaleLoop_skip req secs subErr i (t ++ rest)
      (h i (by simp))]
    exact ih (fun j hj => h j (by simp [hj]))

/-- Counterexample to claim C4: a schedule in which the subscription channel
closes before any matching terminal event and before the timer fires.  No
matching terminal event ever arrives, yet the outcome is a normal return of
the inserted request, not a deadline failure — so "fails with
deadline-exceeded exactly when no matching terminal event arrives within
DefaultScaleTimeout" is false.  (Moreover both error paths build plain errors
— `errors.New` / `fmt.Errorf` at lines 530 and 537, each under a
"return proper error code" TODO — so no failed-precondition or
deadline-exceeded status is attached.) -/
theorem createScale_close_no_timeout_cex :
    createScaleLoop ⟨"s3", "c", "r3", .pending⟩ 30 none [.closed]
      = .ok (convertScaleRequest ⟨"s3", "c", "r3", .pending⟩) := by
  decide

/-- Claim C4 (amended): the loop fails with the plain error message
"scale request cancelled" when — after any prefix of skipped inputs — a
matching event with state cancelled arrives, and with the timeout message
(carrying the timeout in seconds) when the timer fires first; these are the
only inputs producing those messages.  If the channel closes first, the exit
path runs instead, so no timeout error is produced even though no terminal
event has arrived.  Neither failure carries a protocol status code. -/
theorem createScale_error_messages :
    (∀ (req : CtScaleRequest) (secs : Nat) (subErr : Option String)
       (pre : List ScaleLoopIn) (e : Event) (r : CtScaleRequest)
       (rest : List ScaleLoopIn),
      (∀ i ∈ pre, scaleSkips req.id i = true) →
      e.objectType = eventTypeScaleRequest →
      unmarshalScaleRequest e.data = some r →
      r.id = req.id → r.state = .cancelled →
      createScaleLoop req secs subErr (pre ++ .ev e :: rest)
        = .cancelledErr "scale request cancelled") ∧
    (∀ (req : CtScaleRequest) (secs : Nat) (subErr : Option String)
       (pre rest : List ScaleLoopIn),
      (∀ i ∈ pre, scaleSkips req.id i = true) →
      createScaleLoop req secs subErr (pre ++ .timedOut :: rest)
        = .timeoutErr (timeoutMessage secs)) ∧
    (∀ (req : CtScaleRequest) (secs : Nat) (subErr : Option String)
       (inputs : List ScaleLoopIn) (m : String),
      createScaleLoop req secs subErr inputs = .cancelledErr m →
      m = "scale request cancelled") ∧
    (∀ (req : CtScaleRequest) (secs : Nat) (subErr : Option String)
       (inputs : List ScaleLoopIn) (m : String),
      createScaleLoop req secs subErr inputs = .timeoutErr m →
      m = timeoutMessage secs) := by
  refine ⟨?_, ?_, ?_, ?_⟩
  · intro req secs subErr pre e r rest hpre h1 h2 h3 h4
    rw [createScaleLoop_skip_all req secs subErr pre _ hpre]
    have h1b : (e.objectType == eventTypeScaleRequest) = true := by simp [h1]
    simp only [createScaleLoop, h1b, if_true, h2, h3, h4, ne_eq, not_true_eq_false,
      if_false]
  · intro req secs subErr pre rest hpre
    rw [createScaleLoop_skip_all req secs subErr pre _ hpre]
    rfl
  · intro req secs subErr inputs
    induction inputs with
    | nil =>
      intro m h
      simp [createScaleLoop] at h
    | cons i rest ih =>
      intro m h
      cases i with
      | closed =>
        cases hsub : subErr <;> rw [hsub] at h <;>
          simp [createScaleLoop, createScaleFinish] at h
      | timedOut => simp [createScaleLoop] at h
      | ev e =>
        rw [createScaleLoop] at h
        split at h
        · split at h
          · exact ih m h
          · split at h
            · exact ih m h
            · split at h
              · simp at h
                exact h.symm
              · cases hsub : subErr <;> rw [hsub] at h <;>
                  simp [createScaleFinish] at h
              · exact ih m h
        · exact ih m h
  · intro req secs subErr inputs
    induction inputs with
    | nil =>
      intro m h
      simp [createScaleLoop] at h
    | cons i rest ih =>
      intro m h
      cases i with
      | closed =>
        cases hsub : subErr <;> rw [hsub] at h <;>
          simp [createScaleLoop, createScaleFinish] at h
      | timedOut =>
        simp [createScaleLoop] at h
        exact h.symm
      | ev e =>
        rw [createScaleLoop] at h
        split at h
        · split at h
          · exact ih m h
          · split at h
            · exact ih m h
            · split at h
              · simp at h
              · cases hsub : subErr <;> rw [hsub] at h <;>
                  simp [createScaleFinish] at h
              · exact ih m h
        · exact ih m h

/-- Witness for C4: a non-matching event is skipped, then a matching
cancelled event fails with the cancel message; in a second schedule the timer
fires after a skipped event and fails with the timeout message. -/
theorem createScale_error_messages_witness :
    createScaleLoop ⟨"s4", "d", "r4", .pending⟩ 30 (some "boom")
      [.ev ⟨2, "d", "scale_request", "zz", .update,
        .scaleRequest ⟨"zz", "d", "r4", .complete⟩⟩,
       .ev ⟨3, "d", "scale_request", "s4", .update,
        .scaleRequest ⟨"s4", "d", "r4", .cancelled⟩⟩]
      = .cancelledErr "scale request cancelled" ∧
    createScaleLoop ⟨"s4", "d", "r4", .pending⟩ 45 none
      [.ev ⟨2, "d", "scale_request", "zz", .update,
        .scaleRequest ⟨"zz", "d", "r4", .complete⟩⟩, .timedOut]
      = .timeoutErr (timeoutMessage 45) := by
  constructor
  · exact createScale_error_messages.1 ⟨"s4", "d", "r4", .pending⟩ 30 (some "boom")
      [.ev ⟨2, "d", "scale_request", "zz", .update,
        .scaleRequest ⟨"zz", "d", "r4", .complete⟩⟩]
      ⟨3, "d", "scale_request", "s4", .update,
        .scaleRequest ⟨"s4", "d", "r4", .cancelled⟩⟩
      ⟨"s4", "d", "r4", .cancelled⟩ [] (by decide) rfl rfl rfl rfl
  · exact createScale_error_messages.2.1 ⟨"s4", "d", "r4", .pending⟩ 45 none
      [.ev ⟨2, "d", "scale_request", "zz", .update,
        .scaleRequest ⟨"zz", "d", "r4", .complete⟩⟩] [] (by decide)

/-- Counterexample to claim C1: StreamApps performs no event-id
deduplication.  The event with id 7 is committed before the snapshot query
runs, so its app is in the snapshot page and 7 is the maximum event id whose
effect the snapshot observed; because the handler subscribes before listing,
the same event is also delivered on the subscription channel, and the live
tail accepts it — emitting a duplicate single-app response — since the loop
at lines 395-436 never compares `event.ID` with anything. -/
theorem streamApps_accepts_snapshot_event_cex :
    streamAppsRun true false [] [] 0 ⟨none, 0⟩
        [⟨7, "a", "app", "a", .create, .app ⟨"a", "appA", []⟩⟩]
        [⟨7, "a", "app", "a", .create, .app ⟨"a", "appA", []⟩⟩]
      = [[⟨"apps/a", []⟩], [⟨"apps/a", []⟩]] ∧
    maxEventID [⟨7, "a", "app", "a", .create, .app ⟨"a", "appA", []⟩⟩] = 7 := by
  decide

/-- Claim C1 (amended): the `id ≤ currID` guard holds for StreamScales and
StreamReleases.  For StreamScales, any live-tail event that changes the
maintained list has id strictly greater than the snapshot's final `currID`;
for StreamReleases, any live-tail event that causes a response to be emitted
has id strictly greater than the initial live state's `currID` (the state
produced by the snapshot); and when the snapshot event list is nonempty,
descending by id and nonnegative (as `ListEvents` returns it), the
StreamScales snapshot `currID` equals the maximum event id it observed.
StreamApps is excluded: it has no such guard (see the counterexample). -/
theorem phaseL_id_guard_scales_releases :
    (∀ (snap pre : List Event) (e : Event),
      (streamScalesLiveStep (streamScalesLive (streamScalesSnapshot snap) pre) e).scaleRequests
        ≠ (streamScalesLive (streamScalesSnapshot snap) pre).scaleRequests →
      (streamScalesSnapshot snap).currID < e.id) ∧
    (∀ (releaseIDs appIDs : List String) (lf : List LabelFilter)
       (s0 : ReleasesState) (pre : List Event) (e : Event) (r : PRelease),
      (streamReleasesLiveStep releaseIDs appIDs lf
          (streamReleasesLive releaseIDs appIDs lf s0 pre).1 e).2 = some r →
      s0.currID < e.id) ∧
    (∀ snap : List Event,
      snap.Pairwise (fun a b => b.id ≤ a.id) → (∀ e ∈ snap, 0 ≤ e.id) →
      (streamScalesSnapshot snap).currID = maxEventID snap) := by
  refine ⟨?_, ?_, ?_⟩
  · intro snap pre e hchange
    have h1 := streamScalesLiveStep_change_gt _ e hchange
    have h2 := streamScalesLive_currID_mono pre (streamScalesSnapshot snap)
    omega
  · intro releaseIDs appIDs lf s0 pre e r hemit
    have h1 := streamReleasesLiveStep_emit_gt releaseIDs appIDs lf _ e r hemit
    have h2 := streamReleasesLive_currID_mono releaseIDs appIDs lf pre s0
    omega
  · intro snap hsort hpos
    rw [streamScalesSnapshot_currID]
    exact head_id_eq_maxEventID snap hsort hpos

/-- Witness for C1 (amended): with a one-event snapshot (id 5), a live event
with id 7 that changes the scales list satisfies the guard; a live release
event with id 3 emitted from the zero state satisfies it as well; and the
snapshot `currID` equals the maximum for the concrete descending list. -/
theorem phaseL_id_guard_scales_releases_witness :
    (streamScalesSnapshot
        [⟨5, "a", "scale_request", "s1", .create,
          .scaleRequest ⟨"s1", "a", "r1", .pending⟩⟩]).currID < (7 : Int) ∧
    ((0 : Int) < (3 : Int)) ∧
    (streamScalesSnapshot
        [⟨5, "a", "scale_request", "s1", .create,
          .scaleRequest ⟨"s1", "a", "r1", .pending⟩⟩]).currID
      = maxEventID
          [⟨5, "a", "scale_request", "s1", .create,
            .scaleRequest ⟨"s1", "a", "r1", .pending⟩⟩] := by
  refine ⟨?_, ?_, ?_⟩
  · exact phaseL_id_guard_scales_releases.1
      [⟨5, "a", "scale_request", "s1", .create, .scaleRequest ⟨"s1", "a", "r1", .pending⟩⟩]
      []
      ⟨7, "a", "scale_request", "s2", .create, .scaleRequest ⟨"s2", "a", "r1", .pending⟩⟩
      (by decide)
  · exact phaseL_id_guard_scales_releases.2.1 [] [] [] ⟨0, []⟩ []
      ⟨3, "a", "release", "rel1", .create, .release ⟨"rel1", "a", []⟩⟩
      ⟨"apps/a/releases/rel1", []⟩ (by decide)
  · exact phaseL_id_guard_scales_releases.2.2
      [⟨5, "a", "scale_request", "s1", .create, .scaleRequest ⟨"s1", "a", "r1", .pending⟩⟩]
      (by decide) (by decide)

/-- Counterexample to claim C6: with effective pageSize 0 the snapshot query
requests 0 (meaning all) rows, not pageSize+1 = 1, and on a two-row result —
which is not pageSize+1 rows — the code still drops the last row and emits a
non-empty next-page token, because the branch condition at line 801 is
`pageSize == 0 || len(list) == pageSize+1`. -/
theorem releases_page_zero_size_cex :
    streamReleasesPage 0
      [⟨2, "a", "release", "r2", .create, .release ⟨"r2", "a", []⟩⟩,
       ⟨1, "a", "release", "r1", .create, .release ⟨"r1", "a", []⟩⟩]
      = some ([⟨2, "a", "release", "r2", .create, .release ⟨"r2", "a", []⟩⟩],
              some ⟨some 2, 0⟩) ∧
    releasesRequestCount 0 = 0 := by
  decide

/-- Claim C6 (amended): when the effective pageSize is positive, the snapshot
query requests pageSize+1 rows, and exactly when pageSize+1 rows come back
the surplus (last) row is dropped and the next-page token carries the id of
the first element of the remaining window and size pageSize; otherwise the
token is empty.  When pageSize is 0 the query requests all rows and, on any
nonempty result, the last row is dropped and a token is emitted anyway — a
single-row result even panics (indexing the emptied slice). -/
theorem releases_pagination :
    (∀ ps : Int, ps > 0 → releasesRequestCount ps = ps + 1) ∧
    (∀ (ps : Int) (list : List Event) (e : Event) (rest : List Event),
      ps > 0 → (list.length : Int) = ps + 1 → list.dropLast = e :: rest →
      streamReleasesPage ps list = some (e :: rest, some ⟨some e.id, ps⟩)) ∧
    (∀ (ps : Int) (list : List Event),
      ps > 0 → (list.length : Int) ≠ ps + 1 →
      streamReleasesPage ps list = some (list, none)) ∧
    releasesRequestCount 0 = 0 ∧
    (∀ (list : List Event) (e : Event) (rest : List Event),
      list.dropLast = e :: rest →
      streamReleasesPage 0 list = some (e :: rest, some ⟨some e.id, 0⟩)) ∧
    (∀ e : Event, streamReleasesPage 0 [e] = none) := by
  refine ⟨?_, ?_, ?_, rfl, ?_, ?_⟩
  · intro ps hps
    simp [releasesRequestCount, hps]
  · intro ps list e rest hps hlen hdrop
    have hlen0 : list.length > 0 := by
      by_contra h
      push_neg at h
      interval_cases hl : list.length
      omega
    rw [streamReleasesPage, if_pos ⟨Or.inr hlen, hlen0⟩, hdrop]
  · intro ps list hps hlen
    rw [streamReleasesPage, if_neg]
    rintro ⟨h1 | h1, _⟩
    · omega
    · exact hlen h1
  · intro list e rest hdrop
    have hlen0 : list.length > 0 := by
      cases list with
      | nil => simp at hdrop
      | cons x t => simp
    rw [streamReleasesPage, if_pos ⟨Or.inl rfl, hlen0⟩, hdrop]
  · intro e
    rw [streamReleasesPage, if_pos ⟨Or.inl rfl, by simp⟩]
    rfl

/-- Witness for C6: pageSize 1 with two rows returned drops the surplus and
tokenizes on the head of the remaining window; pageSize 1 with one row
returned leaves the list intact with an empty token. -/
theorem releases_pagination_witness :
    streamReleasesPage 1
      [⟨2, "a", "release", "r2", .create, .release ⟨"r2", "a", []⟩⟩,
       ⟨1, "a", "release", "r1", .create, .release ⟨"r1", "a", []⟩⟩]
      = some ([⟨2, "a", "release", "r2", .create, .release ⟨"r2", "a", []⟩⟩],
              some ⟨some 2, 1⟩) ∧
    streamReleasesPage 1
      [⟨2, "a", "release", "r2", .create, .release ⟨"r2", "a", []⟩⟩]
      = some ([⟨2, "a", "release", "r2", .create, .release ⟨"r2", "a", []⟩⟩], none) ∧
    releasesRequestCount 1 = 2 := by
  refine ⟨?_, ?_, ?_⟩
  · exact releases_pagination.2.1 1
      [⟨2, "a", "release", "r2", .create, .release ⟨"r2", "a", []⟩⟩,
       ⟨1, "a", "release", "r1", .create, .release ⟨"r1", "a", []⟩⟩]
      ⟨2, "a", "release", "r2", .create, .release ⟨"r2", "a", []⟩⟩ []
      (by decide) (by decide) (by decide)
  · exact releases_pagination.2.2.1 1
      [⟨2, "a", "release", "r2", .create, .release ⟨"r2", "a", []⟩⟩]
      (by decide) (by decide)
  · exact releases_pagination.1 1 (by decide)

/-- Claim C7: in every streaming handler an event whose payload fails to
unmarshal produces no response, leaves the handler's list state unchanged and
does not terminate the stream — the loop moves on to the remaining events.
(The accompanying log write is an IO effect outside the model.) -/
theorem malformed_payloads_skipped :
    (∀ (sc su : Bool) (lf : List LabelFilter) (e : Event),
      unmarshalApp e.data = none →
      streamAppsAccept sc su lf e = none ∧
      ∀ rest, streamAppsLive sc su lf (e :: rest) = streamAppsLive sc su lf rest) ∧
    (∀ (s : ScalesState) (e : Event),
      unmarshalScaleRequest e.data = none →
      (streamScalesLiveStep s e).scaleRequests = s.scaleRequests ∧
      ∀ rest, streamScalesLive s (e :: rest)
        = streamScalesLive (streamScalesLiveStep s e) rest) ∧
    (∀ (releaseIDs appIDs : List String) (lf : List LabelFilter)
       (s : ReleasesState) (e : Event),
      unmarshalRelease e.data = none →
      (streamReleasesLiveStep releaseIDs appIDs lf s e).2 = none ∧
      (streamReleasesLiveStep releaseIDs appIDs lf s e).1.releases = s.releases ∧
      ∀ (l : List PRelease), maybePrependRelease releaseIDs appIDs lf e l = l) ∧
    (∀ (getExpanded : String → Except String PExpandedDeployment)
       (typeFilters : List String) (e : Event),
      unmarshalDeploymentEvent e.data = none →
      streamDeploymentsLiveStep getExpanded typeFilters e = none ∧
      ∀ rest, streamDeploymentsLive getExpanded typeFilters (e :: rest)
        = streamDeploymentsLive getExpanded typeFilters rest) ∧
    (∀ (scale : String → ScaleOutcome) (getDep : String → Except String CtDeployment)
       (hasSR : Bool) (subErr : Option String) (e : Event) (rest : List Event),
      unmarshalDeploymentEvent e.data = none →
      createDeploymentLoop scale getDep hasSR subErr (e :: rest)
        = createDeploymentLoop scale getDep hasSR subErr rest) := by
  refine ⟨?_, ?_, ?_, ?_, ?_⟩
  · intro sc su lf e hu
    have hacc : streamAppsAccept sc su lf e = none := by
      rw [streamAppsAccept]
      by_cases h1 : e.objectType == eventTypeApp
      · rw [if_pos h1, hu]
      · rw [if_neg h1]
    exact ⟨hacc, fun rest => by simp [streamAppsLive, hacc]⟩
  · intro s e hu
    have hpre : prependScaleRequest e s.scaleRequests = none := by
      simp [prependScaleRequest, hu]
    constructor
    · rw [streamScalesLiveStep]
      by_cases h1 : e.id ≤ s.currID
      · rw [if_pos h1]
      · rw [if_neg h1, scalesIngest]
        simp [prependScaleRequest, hu]
    · intro rest
      rfl
  · intro releaseIDs appIDs lf s e hu
    have hacc : ∀ r, maybeAcceptRelease releaseIDs appIDs lf e ≠ .accepted r := by
      intro r h
      rw [maybeAcceptRelease] at h
      split at h
      · simp at h
      · rw [hu] at h
        simp at h
    refine ⟨?_, ?_, ?_⟩
    · rw [streamReleasesLiveStep]
      by_cases h1 : e.id ≤ s.currID
      · rw [if_pos h1]
      · rw [if_neg h1]
        cases hm : maybeAcceptRelease releaseIDs appIDs lf e with
        | accepted r => exact absurd hm (hacc r)
        | parseError => rfl
        | rejected => rfl
    · rw [streamReleasesLiveStep]
      by_cases h1 : e.id ≤ s.currID
      · rw [if_pos h1]
      · rw [if_neg h1]
        cases hm : maybeAcceptRelease releaseIDs appIDs lf e with
        | accepted r => exact absurd hm (hacc r)
        | parseError => rfl
        | rejected => rfl
    · intro l
      rw [maybePrependRelease]
      cases hm : maybeAcceptRelease releaseIDs appIDs lf e with
      | accepted r => exact absurd hm (hacc r)
      | parseError => rfl
      | rejected => rfl
  · intro getExpanded typeFilters e hu
    have hstep : streamDeploymentsLiveStep getExpanded typeFilters e = none := by
      rw [streamDeploymentsLiveStep, hu]
    exact ⟨hstep, fun rest => by simp [streamDeploymentsLive, hstep]⟩
  · intro scale getDep hasSR subErr e rest hu
    simp only [createDeploymentLoop]
    by_cases h1 : e.objectType != eventTypeDeployment
    · rw [if_pos h1]
    · rw [if_neg h1, hu]

/-- Witness for C7: a concrete event with a malformed payload is skipped by
each of the four live loops. -/
theorem malformed_payloads_skipped_witness :
    streamAppsAccept true true [] ⟨9, "a", "app", "a", .create, .malformed⟩ = none ∧
    (streamScalesLiveStep ⟨1, []⟩
        ⟨9, "a", "scale_request", "s1", .create, .malformed⟩).scaleRequests = [] ∧
    (streamReleasesLiveStep [] [] [] ⟨1, []⟩
        ⟨9, "a", "release", "r1", .create, .malformed⟩).2 = none ∧
    streamDeploymentsLiveStep (fun _ => .error "no") []
        ⟨9, "a", "deployment", "d1", .create, .malformed⟩ = none ∧
    createDeploymentLoop (fun _ => .blocked) (fun _ => .error "no") true none
        [⟨9, "a", "deployment", "d1", .create, .malformed⟩]
      = createDeploymentLoop (fun _ => .blocked) (fun _ => .error "no") true none [] := by
  refine ⟨?_, ?_, ?_, ?_, ?_⟩
  · exact (malformed_payloads_skipped.1 true true []
      ⟨9, "a", "app", "a", .create, .malformed⟩ rfl).1
  · exact (malformed_payloads_skipped.2.1 ⟨1, []⟩
      ⟨9, "a", "scale_request", "s1", .create, .malformed⟩ rfl).1
  · exact (malformed_payloads_skipped.2.2.1 [] [] [] ⟨1, []⟩
      ⟨9, "a", "release", "r1", .create, .malformed⟩ rfl).1
  · exact (malformed_payloads_skipped.2.2.2.1 (fun _ => .error "no") []
      ⟨9, "a", "deployment", "d1", .create, .malformed⟩ rfl).1
  · exact malformed_payloads_skipped.2.2.2.2 (fun _ => .blocked) (fun _ => .error "no")
      true none ⟨9, "a", "deployment", "d1", .create, .malformed⟩ [] rfl

/-- Claim C9: when fewer apps than the effective page size survive the
in-handler filters and the store reports a further page, `listApps` recurses
on the next-page token; a recursive error is discarded — the current partial
page and its next-page token are returned with a nil error — and a recursive
success is prepended before the current page, returning the deeper call's
next-page token. -/
theorem listApps_fills_page_discards_recursive_error :
    ∀ (store : PageToken → Except String (List CtApp × Option PageToken))
      (ids : List String) (lf : List LabelFilter) (reqPS : Int) (fuel : Nat)
      (t : PageToken) (page : List CtApp) (npt : PageToken),
      store (effToken reqPS t) = .ok (page, some npt) →
      ((selectApps ids lf (effPageSize reqPS t page) page 0).length : Int)
          < effPageSize reqPS t page →
      (∀ msg, listAppsGo store ids lf reqPS fuel npt = .error msg →
        listAppsGo store ids lf reqPS (fuel + 1) t
          = .ok (selectApps ids lf (effPageSize reqPS t page) page 0, some npt)) ∧
      (∀ nextApps npt2,
        listAppsGo store ids lf reqPS fuel npt = .ok (nextApps, npt2) →
        listAppsGo store ids lf reqPS (fuel + 1) t
          = .ok (nextApps ++ selectApps ids lf (effPageSize reqPS t page) page 0,
                 npt2)) := by
  intro store ids lf reqPS fuel t page npt hstore hlt
  have heq : listAppsGo store ids lf reqPS (fuel + 1) t =
      (if ((selectApps ids lf (effPageSize reqPS t page) page 0).length : Int)
          < effPageSize reqPS t page then
        match listAppsGo store ids lf reqPS fuel npt with
        | .error _ =>
          .ok (selectApps ids lf (effPageSize reqPS t page) page 0, some npt)
        | .ok (nextApps, npt2) =>
          .ok (nextApps ++ selectApps ids lf (effPageSize reqPS t page) page 0, npt2)
      else .ok (selectApps ids lf (effPageSize reqPS t page) page 0, some npt)) := by
    rw [listAppsGo, listAppsStep, hstore]
  constructor
  · intro msg hrec
    rw [heq, if_pos hlt, hrec]
  · intro nextApps npt2 hrec
    rw [heq, if_pos hlt, hrec]

/-- Witness for C9: a store whose first page holds one app and reports a next
page.  With a second page that errors, the partial page and the current token
come back error-free; with a second page that succeeds, its apps are
prepended. -/
theorem listApps_fills_page_witness :
    listAppsGo
      (fun pt => match pt.beforeID with
        | none => .ok ([⟨"a1", "A1", []⟩], some ⟨some 5, 2⟩)
        | some _ => .error "store failure")
      [] [] 2 1 ⟨none, 0⟩
      = .ok ([⟨"apps/a1", []⟩], some ⟨some 5, 2⟩) ∧
    listAppsGo
      (fun pt => match pt.beforeID with
        | none => .ok ([⟨"a1", "A1", []⟩], some ⟨some 5, 2⟩)
        | some _ => .ok ([⟨"a2", "A2", []⟩], none))
      [] [] 2 1 ⟨none, 0⟩
      = .ok ([⟨"apps/a2", []⟩, ⟨"apps/a1", []⟩], none) := by
  constructor
  · exact (listApps_fills_page_discards_recursive_error
      (fun pt => match pt.beforeID with
        | none => .ok ([⟨"a1", "A1", []⟩], some ⟨some 5, 2⟩)
        | some _ => .error "store failure")
      [] [] 2 0 ⟨none, 0⟩ [⟨"a1", "A1", []⟩] ⟨some 5, 2⟩ rfl (by decide)).1
      "store failure" rfl
  · exact (listApps_fills_page_discards_recursive_error
      (fun pt => match pt.beforeID with
        | none => .ok ([⟨"a1", "A1", []⟩], some ⟨some 5, 2⟩)
        | some _ => .ok ([⟨"a2", "A2", []⟩], none))
      [] [] 2 0 ⟨none, 0⟩ [⟨"a1", "A1", []⟩] ⟨some 5, 2⟩ rfl (by decide)).2
      [⟨"apps/a2", []⟩] none rfl

/-- Claim C10: the CreateDeployment loop's observable behaviour is invariant
under the internal scale operation's outcome — both its returned value and
its error are discarded — and on a complete deployment with an embedded scale
request the scale call is recorded before the deployment event is sent, after
which the loop breaks and returns the subscription error cell (nil on normal
exit). -/
theorem createDeployment_discards_scale_outcome :
    (∀ (f g : String → ScaleOutcome) (getDep : String → Except String CtDeployment)
       (hasSR : Bool) (subErr : Option String) (events : List Event),
      createDeploymentLoop f getDep hasSR subErr events
        = createDeploymentLoop g getDep hasSR subErr events) ∧
    (∀ (f : String → ScaleOutcome) (getDep : String → Except String CtDeployment)
       (subErr : Option String) (e : Event) (rest : List Event)
       (de : CtDeploymentEvent) (d : CtDeployment),
      e.objectType = eventTypeDeployment →
      unmarshalDeploymentEvent e.data = some de →
      getDep e.objectID = .ok d →
      d.status = "complete" →
      createDeploymentLoop f getDep true subErr (e :: rest)
        = ([.scaleCall ("apps/" ++ d.appID ++ "/releases/" ++ d.newReleaseID),
            .sendEvent de "complete"],
           match subErr with
           | some m => .error m
           | none => .ok ())) := by
  constructor
  · intro f g getDep hasSR subErr events
    induction events with
    | nil => rfl
    | cons e rest ih =>
      simp only [createDeploymentLoop]
      rw [ih]
  · intro f getDep subErr e rest de d h1 h2 h3 h4
    have h1b : (e.objectType != eventTypeDeployment) = false := by simp [h1]
    simp only [createDeploymentLoop, h1b, Bool.false_eq_true, if_false, h2, h3, h4]
    simp

/-- Witness for C10: a concrete complete deployment event with an embedded
scale request; the recorded trace is the scale call followed by the send, and
the loop result is the nil subscription error. -/
theorem createDeployment_discards_scale_outcome_witness :
    createDeploymentLoop (fun _ => .blocked)
      (fun _ => .ok ⟨"a", "r2", "complete"⟩) true none
      [⟨4, "a", "deployment", "d1", .update,
        .deploymentEvent ⟨"web", "up", "", "complete"⟩⟩]
      = ([.scaleCall "apps/a/releases/r2",
          .sendEvent ⟨"web", "up", "", "complete"⟩ "complete"], .ok ()) := by
  exact createDeployment_discards_scale_outcome.2 (fun _ => .blocked)
    (fun _ => .ok ⟨"a", "r2", "complete"⟩) none
    ⟨4, "a", "deployment", "d1", .update,
      .deploymentEvent ⟨"web", "up", "", "complete"⟩⟩
    [] ⟨"web", "up", "", "complete"⟩ ⟨"a", "r2", "complete"⟩ rfl rfl rfl rfl
